import Mathlib

/-!
Verification of the Silica protocol contract SDK (guest-side contract runtime).

The Rust sources are shallowly embedded as Lean definitions:

* `ContractError` mirrors `error.rs`.
* Persistent storage is modelled as an association list from string keys to
  typed payloads (`Val`).  This matches the mock host runtime of `ffi.rs`
  (an ordered map from keys to byte payloads, where writing an empty payload
  removes the entry) specialised to the value types the verified operations
  store: postcard encodings of `String`, `bool` and `u64` are never empty, so
  a `set` is an insert and a `remove` is a deletion.  All storage operations
  are modelled under a fixed valid execution context, so keys are scoped to
  one contract address, and host reads and writes never fail, as in the mock
  runtime.  Decoding a stored payload at the type it was written with
  succeeds and returns the written value (postcard round-trip); decoding at a
  different type is modelled as `DeserializationFailed`.
* The byte-level error handling of `Storage::get` in `storage.rs` is embedded
  separately (`storage_get_from`) as a function of the host read outcome.
* Third-party cryptography (`blake3`, `ed25519_dalek`) is not part of this
  repository; the signature-verification embedding is parametrised by an
  abstract key parser and verifier, and the map key digest is modelled as an
  injective encoding of the serialised key, matching the collision-freedom
  invariant the specification states for it.
-/

namespace SilicaSDK

/-- Contract execution errors, from `error.rs` (`ContractError`). -/
inductive ContractError where
  | StorageReadFailed
  | StorageWriteFailed
  | SerializationFailed
  | DeserializationFailed
  | Unauthorized
  | InsufficientBalance (required available : Nat)
  | InvalidArgument (msg : String)
  | ContractCallFailed (msg : String)
  | TransferFailed
  | CallDataUnavailable
  | ReturnDataWriteFailed
  | InvalidSignature
  | Overflow
  | Underflow
  | ReentrancyDetected
  | Custom (msg : String)
deriving DecidableEq, Repr

deriving instance DecidableEq for Except

/-- A stored payload, standing for the postcard encoding of the value types
the verified operations persist (`String` for the owner pointer, `bool` for
role grants, `u64` for vector lengths, plus vector elements). -/
inductive Val where
  | vStr (s : String)
  | vBool (b : Bool)
  | vNat (n : Nat)
deriving DecidableEq, Repr

/-- Contract storage: the mock runtime ordered table of `ffi.rs`, restricted
to the namespace of one contract address. -/
abbrev Store := List (String × Val)

/-- Key lookup in the store (mock runtime `read_storage`: an absent key reads
back as an empty payload, i.e. `none` here). -/
def lookupStore : Store → String → Option Val
  | [], _ => none
  | (k, v) :: rest, key => if k = key then some v else lookupStore rest key

/-- Key insert/overwrite (mock runtime `write_storage` with a non-empty
payload). -/
def insertStore : Store → String → Val → Store
  | [], key, v => [(key, v)]
  | (k, w) :: rest, key, v =>
      if k = key then (key, v) :: rest else (k, w) :: insertStore rest key v

/-- Key removal (mock runtime `write_storage` with an empty payload, the
tombstone representation used by `Storage::remove`). -/
def removeStore : Store → String → Store
  | [], _ => []
  | (k, w) :: rest, key =>
      if k = key then removeStore rest key else (k, w) :: removeStore rest key

theorem lookup_insertStore_self (s : Store) (k : String) (v : Val) :
    lookupStore (insertStore s k v) k = some v := by
  induction s with
  | nil => simp [insertStore, lookupStore]
  | cons hd tl ih =>
      obtain ⟨k', w⟩ := hd
      by_cases h : k' = k
      · simp [insertStore, h, lookupStore]
      · simp [insertStore, h, lookupStore, ih]

theorem lookup_insertStore_ne (s : Store) (k : String) (v : Val) (k' : String)
    (h : k' ≠ k) : lookupStore (insertStore s k v) k' = lookupStore s k' := by
  induction s with
  | nil => simp [insertStore, lookupStore, Ne.symm h]
  | cons hd tl ih =>
      obtain ⟨k₀, w⟩ := hd
      by_cases h0 : k₀ = k
      · subst h0
        simp [insertStore, lookupStore, Ne.symm h]
      · simp [insertStore, h0, lookupStore, ih]

theorem lookup_removeStore_ne (s : Store) (k k' : String) (h : k' ≠ k) :
    lookupStore (removeStore s k) k' = lookupStore s k' := by
  induction s with
  | nil => simp [removeStore]
  | cons hd tl ih =>
      obtain ⟨k₀, w⟩ := hd
      by_cases h0 : k₀ = k
      · subst h0
        simp [removeStore, lookupStore, ih, Ne.symm h]
      · simp [removeStore, h0, lookupStore, ih]

theorem lookup_removeStore_self (s : Store) (k : String) :
    lookupStore (removeStore s k) k = none := by
  induction s with
  | nil => simp [removeStore, lookupStore]
  | cons hd tl ih =>
      obtain ⟨k₀, w⟩ := hd
      by_cases h0 : k₀ = k
      · simp [removeStore, h0, ih]
      · simp [removeStore, h0, lookupStore, ih]

/-- `Storage::get` from `storage.rs`, as a function of the outcome of the
underlying host read and of the postcard decoder for the requested type.
Source (lines 17-32): an empty payload reads as `Ok(None)`; a non-empty
payload is decoded, failing `DeserializationFailed` on a malformed payload;
a host `StorageReadFailed` is mapped to `Ok(None)`; every other host error
is propagated. -/
def storage_get_from {α : Type} (readResult : Except ContractError (List Nat))
    (decode : List Nat → Option α) : Except ContractError (Option α) :=
  match readResult with
  | .ok [] => .ok none
  | .ok data =>
      match decode data with
      | some v => .ok (some v)
      | none => .error .DeserializationFailed
  | .error .StorageReadFailed => .ok none
  | .error e => .error e

/-- Decoder for the typed store: reading back a payload at the type it was
written with succeeds; reading it at another type fails. -/
def storeGet (decode : Val → Option β) (s : Store) (key : String) :
    Except ContractError (Option β) :=
  match lookupStore s key with
  | none => .ok none
  | some v =>
      match decode v with
      | some b => .ok (some b)
      | none => .error .DeserializationFailed

/-- `Storage::get::<String>` over the typed store. -/
def getStr (s : Store) (key : String) : Except ContractError (Option String) :=
  storeGet (fun v => match v with | .vStr x => some x | _ => none) s key

/-- `Storage::get::<bool>` over the typed store. -/
def getBool (s : Store) (key : String) : Except ContractError (Option Bool) :=
  storeGet (fun v => match v with | .vBool b => some b | _ => none) s key

/-- `Storage::get::<u64>` over the typed store. -/
def getNat (s : Store) (key : String) : Except ContractError (Option Nat) :=
  storeGet (fun v => match v with | .vNat n => some n | _ => none) s key

/-- Claim C9: `Storage::get` maps a host `StorageReadFailed` to `Ok(None)`,
exactly the result of an absent or empty entry, so a caller cannot
distinguish a host read failure from key absence through `get`; only
deserialization failures and other, non-read host errors are surfaced. -/
theorem c9_get_swallows_read_failure {α : Type}
    (decode : List Nat → Option α) (data : List Nat) (e : ContractError) :
    storage_get_from (.error .StorageReadFailed) decode = .ok none ∧
    storage_get_from (.ok []) decode = .ok none ∧
    (e ≠ .StorageReadFailed →
      storage_get_from (.error e) decode = .error e) ∧
    (data ≠ [] → decode data = none →
      storage_get_from (.ok data) decode = .error .DeserializationFailed) ∧
    (∀ v : α, data ≠ [] → decode data = some v →
      storage_get_from (.ok data) decode = .ok (some v)) := by
  refine ⟨rfl, rfl, ?_, ?_, ?_⟩
  · intro he
    cases e <;> first | rfl | exact absurd rfl he
  · intro hne hdec
    cases data with
    | nil => exact absurd rfl hne
    | cons d ds => simp [storage_get_from, hdec]
  · intro v hne hdec
    cases data with
    | nil => exact absurd rfl hne
    | cons d ds => simp [storage_get_from, hdec]

/-- Witness for C9 at concrete inputs. -/
theorem c9_get_swallows_read_failure_witness :
    (ContractError.Unauthorized ≠ ContractError.StorageReadFailed ∧
      storage_get_from (α := Nat) (.error .Unauthorized) (fun _ => none) =
        .error .Unauthorized) ∧
    ([7] ≠ ([] : List Nat) ∧
      storage_get_from (α := Nat) (.ok [7]) (fun _ => none) =
        .error .DeserializationFailed) := by
  refine ⟨⟨by decide, ?_⟩, ⟨by decide, ?_⟩⟩
  · exact (c9_get_swallows_read_failure (fun _ => none) [7]
      ContractError.Unauthorized).2.2.1 (by decide)
  · exact (c9_get_swallows_read_failure (fun _ => none) [7]
      ContractError.Unauthorized).2.2.2.1 (by decide) rfl

/-! ## Reentrancy guard (`security.rs`, `ReentrancyGuard`)

The process-wide `ENTERED_FLAG` atomic boolean is modelled as an explicit
`Bool` state threaded through the operations; each invocation is
single-threaded, so the compare-exchange is an ordinary test-and-set. -/

/-- `ReentrancyGuard::enter`: atomic false-to-true transition on the flag.
Returns the new flag state and either a held guard (`Unit`) or
`ReentrancyDetected` when the flag was already set (the failed
compare-exchange leaves the flag true). -/
def reentrancyEnter (flag : Bool) : Bool × Except ContractError Unit :=
  if flag then (flag, .error .ReentrancyDetected) else (true, .ok ())

/-- `ReentrancyGuard::exit`, also the RAII `Drop` of the returned guard:
stores false unconditionally. -/
def reentrancyExit (_flag : Bool) : Bool := false

/-- `ReentrancyGuard::execute`: enter, run the closure, drop the guard, and
return the closure result.  The guard is dropped on both the normal-return
path and the propagated-error path of the closure. -/
def reentrancyExecute {α : Type} (f : Unit → Except ContractError α)
    (flag : Bool) : Bool × Except ContractError α :=
  match reentrancyEnter flag with
  | (flag1, .error e) => (flag1, .error e)
  | (flag1, .ok ()) =>
      let result := f ()
      (reentrancyExit flag1, result)

/-- Claim C1: while a previously returned guard is held (flag true), a second
`enter` fails `ReentrancyDetected` and leaves the flag true; after the held
guard is released by drop (`reentrancyExit`, taken on every exit path), a
subsequent `enter` succeeds; `enter` succeeds exactly when the flag is false,
so at most one guarded section is active at a time; and `execute` releases
the flag whether the closure returns normally or propagates an error. -/
theorem c1_reentrancy_guard {α : Type} (b : Bool)
    (f : Unit → Except ContractError α) :
    reentrancyEnter true = (true, .error .ReentrancyDetected) ∧
    reentrancyEnter (reentrancyExit b) = (true, .ok ()) ∧
    ((reentrancyEnter b).2 = .ok () ↔ b = false) ∧
    ((reentrancyEnter b).1 = true) ∧
    reentrancyExecute f b =
      (if b then (true, .error .ReentrancyDetected) else (false, f ())) := by
  refine ⟨rfl, rfl, ?_, ?_, ?_⟩
  · cases b <;> simp [reentrancyEnter]
  · cases b <;> simp [reentrancyEnter]
  · cases b <;> simp [reentrancyExecute, reentrancyEnter, reentrancyExit]

/-! ## Execution context (`context.rs`) and address validation
(`security.rs`, `validation::validate_address`) -/

/-- `validation::validate_address`: empty addresses and addresses whose
UTF-8 byte length is below 10 or above 100 fail `InvalidArgument`. -/
def validate_address (address : String) : Except ContractError Unit :=
  if address = "" then
    .error (.InvalidArgument "Address cannot be empty")
  else if address.utf8ByteSize < 10 ∨ 100 < address.utf8ByteSize then
    .error (.InvalidArgument "Invalid address length")
  else
    .ok ()

/-- `MAX_BLOCK_HEIGHT` from `context.rs`. -/
def MAX_BLOCK_HEIGHT : Nat := 1000000000000000

/-- `MAX_BLOCK_TIMESTAMP` from `context.rs`. -/
def MAX_BLOCK_TIMESTAMP : Nat := 10000000000000

/-- The largest `u64` value. -/
def U64_MAX : Nat := 18446744073709551615

/-- The modulus of `u64` arithmetic, 2^64. -/
def U64_MOD : Nat := 18446744073709551616

/-- `ensure_block_parameters` from `context.rs`, with its exact check
order. -/
def ensure_block_parameters (height timestamp : Nat) :
    Except ContractError Unit :=
  if MAX_BLOCK_HEIGHT < height then
    .error (.InvalidArgument "Block height exceeds maximum bound")
  else if MAX_BLOCK_TIMESTAMP < timestamp then
    .error (.InvalidArgument "Block timestamp exceeds maximum bound")
  else if timestamp = 0 then
    .error (.InvalidArgument "Block timestamp cannot be zero")
  else if height = U64_MAX then
    .error (.InvalidArgument "Block height is invalid")
  else
    .ok ()

/-- The host-supplied per-invocation facts (`ffi.rs` getters). -/
structure HostEnv where
  sender : String
  contract_address : String
  block_height : Nat
  block_timestamp : Nat
  value : Nat
deriving DecidableEq, Repr

/-- The validated execution context (`context.rs`, `Context`). -/
structure Context where
  sender : String
  contract_address : String
  block_height : Nat
  block_timestamp : Nat
  value : Nat
deriving DecidableEq, Repr

/-- `try_context` from `context.rs`: fetch the five host facts, validate the
two addresses and the block parameters, and return the immutable snapshot. -/
def try_context (env : HostEnv) : Except ContractError Context := do
  validate_address env.sender
  validate_address env.contract_address
  ensure_block_parameters env.block_height env.block_timestamp
  pure ⟨env.sender, env.contract_address, env.block_height,
    env.block_timestamp, env.value⟩

/-- The validity condition of claim C8, written from the words of the
specification: both addresses non-empty with byte length in [10, 100],
height at most 10^15 and not the maximum `u64`, timestamp at most 10^13 and
nonzero. -/
def ContextOK (env : HostEnv) : Prop :=
  env.sender ≠ "" ∧ 10 ≤ env.sender.utf8ByteSize ∧
    env.sender.utf8ByteSize ≤ 100 ∧
  env.contract_address ≠ "" ∧ 10 ≤ env.contract_address.utf8ByteSize ∧
    env.contract_address.utf8ByteSize ≤ 100 ∧
  env.block_height ≤ MAX_BLOCK_HEIGHT ∧ env.block_height ≠ U64_MAX ∧
  env.block_timestamp ≤ MAX_BLOCK_TIMESTAMP ∧ env.block_timestamp ≠ 0

instance (env : HostEnv) : Decidable (ContextOK env) := by
  unfold ContextOK
  infer_instance

theorem validate_address_ok (a : String) (h1 : a ≠ "")
    (h2 : 10 ≤ a.utf8ByteSize) (h3 : a.utf8ByteSize ≤ 100) :
    validate_address a = .ok () := by
  rw [validate_address, if_neg h1, if_neg (by omega)]

theorem validate_address_err (a : String)
    (h : a = "" ∨ a.utf8ByteSize < 10 ∨ 100 < a.utf8ByteSize) :
    ∃ m, validate_address a = .error (.InvalidArgument m) := by
  by_cases h1 : a = ""
  · exact ⟨_, by rw [validate_address, if_pos h1]⟩
  · have h2 : a.utf8ByteSize < 10 ∨ 100 < a.utf8ByteSize := by tauto
    exact ⟨_, by rw [validate_address, if_neg h1, if_pos h2]⟩

theorem ensure_block_parameters_ok (h t : Nat) (h1 : h ≤ MAX_BLOCK_HEIGHT)
    (h2 : h ≠ U64_MAX) (h3 : t ≤ MAX_BLOCK_TIMESTAMP) (h4 : t ≠ 0) :
    ensure_block_parameters h t = .ok () := by
  rw [ensure_block_parameters, if_neg (by omega), if_neg (by omega),
    if_neg h4, if_neg h2]

theorem ensure_block_parameters_err (h t : Nat)
    (hbad : MAX_BLOCK_HEIGHT < h ∨ h = U64_MAX ∨
      MAX_BLOCK_TIMESTAMP < t ∨ t = 0) :
    ∃ m, ensure_block_parameters h t = .error (.InvalidArgument m) := by
  by_cases c1 : MAX_BLOCK_HEIGHT < h
  · exact ⟨_, by rw [ensure_block_parameters, if_pos c1]⟩
  by_cases c2 : MAX_BLOCK_TIMESTAMP < t
  · exact ⟨_, by rw [ensure_block_parameters, if_neg c1, if_pos c2]⟩
  by_cases c3 : t = 0
  · exact ⟨_, by rw [ensure_block_parameters, if_neg c1, if_neg c2, if_pos c3]⟩
  have c4 : h = U64_MAX := by tauto
  exact ⟨_, by rw [ensure_block_parameters, if_neg c1, if_neg c2, if_neg c3,
    if_pos c4]⟩

/-- Claim C8: `try_context` succeeds and exposes exactly the injected host
values iff both addresses are non-empty with byte length in [10, 100], the
height is at most 10^15 and not the maximum `u64`, and the timestamp is at
most 10^13 and nonzero; every violation of these bounds fails
`InvalidArgument`. -/
theorem c8_try_context (env : HostEnv) :
    (ContextOK env →
      try_context env = .ok ⟨env.sender, env.contract_address,
        env.block_height, env.block_timestamp, env.value⟩) ∧
    (¬ ContextOK env →
      ∃ m, try_context env = .error (.InvalidArgument m)) := by
  constructor
  · rintro ⟨h1, h2, h3, h4, h5, h6, h7, h8, h9, h10⟩
    rw [try_context, validate_address_ok _ h1 h2 h3,
      validate_address_ok _ h4 h5 h6,
      ensure_block_parameters_ok _ _ h7 h8 h9 h10]
    exact rfl
  · intro hnot
    by_cases a1 : env.sender = "" ∨ env.sender.utf8ByteSize < 10 ∨
        100 < env.sender.utf8ByteSize
    · obtain ⟨m, hm⟩ := validate_address_err _ a1
      exact ⟨m, by rw [try_context, hm]; exact rfl⟩
    push_neg at a1
    obtain ⟨h1, h2, h3⟩ := a1
    have hs := validate_address_ok _ h1 h2 h3
    by_cases a2 : env.contract_address = "" ∨
        env.contract_address.utf8ByteSize < 10 ∨
        100 < env.contract_address.utf8ByteSize
    · obtain ⟨m, hm⟩ := validate_address_err _ a2
      exact ⟨m, by rw [try_context, hs, hm]; exact rfl⟩
    push_neg at a2
    obtain ⟨h4, h5, h6⟩ := a2
    have hc := validate_address_ok _ h4 h5 h6
    by_cases a3 : MAX_BLOCK_HEIGHT < env.block_height ∨
        env.block_height = U64_MAX ∨
        MAX_BLOCK_TIMESTAMP < env.block_timestamp ∨ env.block_timestamp = 0
    · obtain ⟨m, hm⟩ := ensure_block_parameters_err _ _ a3
      exact ⟨m, by rw [try_context, hs, hc, hm]; exact rfl⟩
    · push_neg at a3
      obtain ⟨g1, g2, g3, g4⟩ := a3
      exact absurd ⟨h1, h2, h3, h4, h5, h6, by omega, g2, by omega, g4⟩ hnot

/-- Witness for C8 at the concrete scenario from the specification. -/
theorem c8_try_context_witness :
    ContextOK ⟨"chert1sender000000000000000000",
      "chert1contract0000000000000000", 42, 1700000000, 1000⟩ ∧
    try_context ⟨"chert1sender000000000000000000",
      "chert1contract0000000000000000", 42, 1700000000, 1000⟩ =
      .ok ⟨"chert1sender000000000000000000",
        "chert1contract0000000000000000", 42, 1700000000, 1000⟩ :=
  ⟨by decide, (c8_try_context _).1 (by decide)⟩

/-! ## Signature verification (`crypto.rs` and `ffi.rs`)

Byte buffers are `List Nat`.  The `ed25519_dalek` crate is external to the
repository, so the embedding is parametrised by an abstract key parser
`parseKey` (`VerifyingKey::from_bytes`, `none` on a malformed key) and an
abstract verifier `edVerify` (`VerifyingKey::verify`, `true` on a
cryptographically valid signature).  Both host backends of `ffi.rs` define
the same `verify_signature_slice` over these two calls. -/

/-- `verify_signature_slice` from `ffi.rs`: a malformed public key fails
`InvalidSignature`; otherwise the verification outcome is returned as a
boolean. -/
def verify_signature_slice {κ : Type} (parseKey : List Nat → Option κ)
    (edVerify : κ → List Nat → List Nat → Bool)
    (pubkey message signature : List Nat) : Except ContractError Bool :=
  match parseKey pubkey with
  | none => .error .InvalidSignature
  | some k => .ok (edVerify k message signature)

/-- `verify_signature_internal` from `ffi.rs`: the integer host calling
convention (1 valid, 0 invalid, -1 error). -/
def verify_signature_internal {κ : Type} (parseKey : List Nat → Option κ)
    (edVerify : κ → List Nat → List Nat → Bool)
    (pubkey message signature : List Nat) : Int :=
  match verify_signature_slice parseKey edVerify pubkey message signature with
  | .ok true => 1
  | .ok false => 0
  | .error _ => -1

/-- `call_verify_signature` from `ffi.rs`: decodes the host integer status
back into a result, mapping every non-0/1 status to `InvalidSignature`. -/
def call_verify_signature {κ : Type} (parseKey : List Nat → Option κ)
    (edVerify : κ → List Nat → List Nat → Bool)
    (pubkey message signature : List Nat) : Except ContractError Bool :=
  match verify_signature_internal parseKey edVerify pubkey message signature with
  | 1 => .ok true
  | 0 => .ok false
  | _ => .error .InvalidSignature

/-- `crypto::verify_signature`: delegates to `ffi::call_verify_signature`. -/
def verify_signature {κ : Type} (parseKey : List Nat → Option κ)
    (edVerify : κ → List Nat → List Nat → Bool)
    (pubkey message signature : List Nat) : Except ContractError Bool :=
  call_verify_signature parseKey edVerify pubkey message signature

/-- The element loop of `host::batch_verify_signatures` in `ffi.rs`: one
`verify_signature_slice` per index, stopping at the first error. -/
def batch_verify_go {κ : Type} (parseKey : List Nat → Option κ)
    (edVerify : κ → List Nat → List Nat → Bool) :
    List (List Nat) → List (List Nat) → List (List Nat) →
    Except ContractError (List Bool)
  | [], _, _ => .ok []
  | p :: ps, m :: ms, g :: gs => do
      let r ← verify_signature_slice parseKey edVerify p m g
      let rest ← batch_verify_go parseKey edVerify ps ms gs
      pure (r :: rest)
  | _ :: _, _, _ => .ok []

/-- `host::batch_verify_signatures` from `ffi.rs` (identical in both
backends): equal-length guard, then the element loop. -/
def host_batch_verify_signatures {κ : Type} (parseKey : List Nat → Option κ)
    (edVerify : κ → List Nat → List Nat → Bool)
    (pubkeys messages signatures : List (List Nat)) :
    Except ContractError (List Bool) :=
  if pubkeys.length ≠ messages.length ∨ pubkeys.length ≠ signatures.length then
    .error (.InvalidArgument "Batch input length mismatch")
  else
    batch_verify_go parseKey edVerify pubkeys messages signatures

/-- `crypto::batch_verify_signatures`: its own equal-length guard, then the
host-accelerated path (`simd::batch_verify_signatures_simd`, which forwards
to `ffi::batch_verify_signatures`). -/
def batch_verify_signatures {κ : Type} (parseKey : List Nat → Option κ)
    (edVerify : κ → List Nat → List Nat → Bool)
    (pubkeys messages signatures : List (List Nat)) :
    Except ContractError (List Bool) :=
  if pubkeys.length ≠ messages.length ∨ pubkeys.length ≠ signatures.length then
    .error (.InvalidArgument "Mismatched batch sizes")
  else
    host_batch_verify_signatures parseKey edVerify pubkeys messages signatures

/-- The element loop of `crypto::batch_verify_signatures_fallback`: one
`crypto::verify_signature` per index, stopping at the first error. -/
def batch_verify_fallback_go {κ : Type} (parseKey : List Nat → Option κ)
    (edVerify : κ → List Nat → List Nat → Bool) :
    List (List Nat) → List (List Nat) → List (List Nat) →
    Except ContractError (List Bool)
  | [], _, _ => .ok []
  | p :: ps, m :: ms, g :: gs => do
      let r ← verify_signature parseKey edVerify p m g
      let rest ← batch_verify_fallback_go parseKey edVerify ps ms gs
      pure (r :: rest)
  | _ :: _, _, _ => .ok []

/-- `crypto::batch_verify_signatures_fallback`: element-by-element
verification through `crypto::verify_signature`, with no length guard. -/
def batch_verify_signatures_fallback {κ : Type}
    (parseKey : List Nat → Option κ)
    (edVerify : κ → List Nat → List Nat → Bool)
    (pubkeys messages signatures : List (List Nat)) :
    Except ContractError (List Bool) :=
  batch_verify_fallback_go parseKey edVerify pubkeys messages signatures

theorem call_verify_signature_eq_slice {κ : Type}
    (parseKey : List Nat → Option κ)
    (edVerify : κ → List Nat → List Nat → Bool)
    (pubkey message signature : List Nat) :
    call_verify_signature parseKey edVerify pubkey message signature =
      verify_signature_slice parseKey edVerify pubkey message signature := by
  unfold call_verify_signature verify_signature_internal
  unfold verify_signature_slice
  cases hp : parseKey pubkey with
  | none => rfl
  | some k => cases hv : edVerify k message signature <;> simp [hv]

theorem batch_go_eq_fallback_go {κ : Type} (parseKey : List Nat → Option κ)
    (edVerify : κ → List Nat → List Nat → Bool)
    (ps ms gs : List (List Nat)) :
    batch_verify_go parseKey edVerify ps ms gs =
      batch_verify_fallback_go parseKey edVerify ps ms gs := by
  induction ps generalizing ms gs with
  | nil => rfl
  | cons p pt ih =>
      cases ms with
      | nil => rfl
      | cons m mt =>
          cases gs with
          | nil => rfl
          | cons g gt =>
              rw [batch_verify_go, batch_verify_fallback_go, verify_signature,
                call_verify_signature_eq_slice, ih]

/-- Claim C5: `verify_signature` returns `Ok(false)` when the signature is
cryptographically invalid (not an error), `Ok(true)` when it is valid, and
fails exactly when the public key bytes are not a well-formed verifying key,
in which case the error is `InvalidSignature` — the only error path. -/
theorem c5_verify_signature {κ : Type} (parseKey : List Nat → Option κ)
    (edVerify : κ → List Nat → List Nat → Bool)
    (pubkey message signature : List Nat) :
    verify_signature parseKey edVerify pubkey message signature =
      (match parseKey pubkey with
       | none => .error .InvalidSignature
       | some k => .ok (edVerify k message signature)) ∧
    ((∃ e, verify_signature parseKey edVerify pubkey message signature =
        .error e) ↔ parseKey pubkey = none) := by
  have h : verify_signature parseKey edVerify pubkey message signature =
      verify_signature_slice parseKey edVerify pubkey message signature :=
    call_verify_signature_eq_slice parseKey edVerify pubkey message signature
  constructor
  · rw [h]; rfl
  · rw [h]
    unfold verify_signature_slice
    cases parseKey pubkey with
    | none => exact ⟨fun _ => rfl, fun _ => ⟨.InvalidSignature, rfl⟩⟩
    | some k =>
        constructor
        · rintro ⟨e, he⟩
          exact absurd he (by simp)
        · intro hc
          exact absurd hc (by simp)

/-- Claim C4: `batch_verify_signatures` fails `InvalidArgument` when the
three input slices do not all have the same length; on equal lengths the
host-accelerated path and the element-by-element fallback return identical
results — the same boolean vector or the same error — for identical
input. -/
theorem c4_batch_verify_equivalence {κ : Type}
    (parseKey : List Nat → Option κ)
    (edVerify : κ → List Nat → List Nat → Bool)
    (pubkeys messages signatures : List (List Nat)) :
    (pubkeys.length ≠ messages.length ∨ pubkeys.length ≠ signatures.length →
      ∃ m, batch_verify_signatures parseKey edVerify pubkeys messages
        signatures = .error (.InvalidArgument m)) ∧
    (pubkeys.length = messages.length → pubkeys.length = signatures.length →
      batch_verify_signatures parseKey edVerify pubkeys messages signatures =
        batch_verify_signatures_fallback parseKey edVerify pubkeys messages
          signatures) := by
  constructor
  · intro hbad
    exact ⟨"Mismatched batch sizes", by rw [batch_verify_signatures,
      if_pos hbad]⟩
  · intro h1 h2
    have hok : ¬ (pubkeys.length ≠ messages.length ∨
        pubkeys.length ≠ signatures.length) := by tauto
    rw [batch_verify_signatures, if_neg hok, host_batch_verify_signatures,
      if_neg hok, batch_verify_signatures_fallback, batch_go_eq_fallback_go]

/-- Witness for C4 at concrete inputs: a two-element batch over a toy key
parser that rejects the key `[9]`, and a length-mismatched batch. -/
theorem c4_batch_verify_equivalence_witness :
    ([[1], [2]] : List (List Nat)).length = ([[3], [4]] : List (List Nat)).length ∧
    ([[1], [2]] : List (List Nat)).length = ([[5], [6]] : List (List Nat)).length ∧
    batch_verify_signatures (κ := Unit)
        (fun p => if p = [9] then none else some ())
        (fun _ m _ => m = [3]) [[1], [2]] [[3], [4]] [[5], [6]] =
      batch_verify_signatures_fallback (κ := Unit)
        (fun p => if p = [9] then none else some ())
        (fun _ m _ => m = [3]) [[1], [2]] [[3], [4]] [[5], [6]] :=
  ⟨rfl, rfl,
    (c4_batch_verify_equivalence _ _ [[1], [2]] [[3], [4]] [[5], [6]]).2
      rfl rfl⟩

/-! ## Access control (`security.rs`, `AccessControl`)

The owner pointer lives at `OWNER_KEY`; role grants live in a
`Map<String, bool>` with bucket `__ac_roles`, whose physical keys are
derived through the map key pipeline of `storage.rs`. -/

/-- `OWNER_KEY` from `security.rs`. -/
def OWNER_KEY : String := "__ac_owner"

/-- `ROLE_BUCKET` from `security.rs`. -/
def ROLE_BUCKET : String := "__ac_roles"

/-- Modelled from the spec: the hex-encoded 256-bit digest of the serialised
map key, computed by the third-party `blake3` crate in
`Map::storage_key` (`storage.rs`).  The specification states the invariant
that identical keys always yield the same physical key and distinct keys
yield distinct physical keys; the digest pipeline is therefore modelled as
an injective encoding of the serialised key. -/
def digestHex (s : String) : String := s

/-- `Map::storage_key` from `storage.rs`: bucket, separator, digest. -/
def mapStorageKey (bucket k : String) : String := bucket ++ ":" ++ digestHex k

/-- `role_storage_key` from `security.rs`. -/
def role_storage_key (role addr : String) : String := role ++ ":" ++ addr

/-- The physical storage key of a role grant: `role_storage_key` sent
through the role map of `security.rs` (`roles_map`). -/
def roleKey (role addr : String) : String :=
  mapStorageKey ROLE_BUCKET (role_storage_key role addr)

theorem roleKey_ne_owner (role addr : String) : roleKey role addr ≠ OWNER_KEY := by
  intro h
  have hlen := congrArg (fun s => s.data.length) h
  simp only [roleKey, mapStorageKey, role_storage_key, digestHex, ROLE_BUCKET,
    OWNER_KEY, String.data_append, List.length_append] at hlen
  have e1 : ("__ac_roles".data).length = 10 := by decide
  have e2 : ((":").data).length = 1 := by decide
  have e3 : ("__ac_owner".data).length = 10 := by decide
  rw [e1, e2, e3] at hlen
  omega

theorem roleKey_inj_addr (role x y : String)
    (h : roleKey role x = roleKey role y) : x = y := by
  have hd := congrArg String.data h
  simp only [roleKey, mapStorageKey, role_storage_key, digestHex, ROLE_BUCKET,
    String.data_append, List.append_assoc] at hd
  exact String.ext (List.append_cancel_left (List.append_cancel_left
    (List.append_cancel_left (List.append_cancel_left hd))))

/-- `AccessControl::read_owner`. -/
def acReadOwner (s : Store) : Except ContractError (Option String) :=
  getStr s OWNER_KEY

/-- `AccessControl::owner`: the stored owner, with any storage error
degraded to `None`. -/
def acOwner (s : Store) : Option String :=
  match acReadOwner s with
  | .ok o => o
  | .error _ => none

/-- `AccessControl::is_owner`. -/
def acIsOwner (s : Store) (addr : String) : Except ContractError Bool := do
  let ow ← acReadOwner s
  pure (match ow with
        | some o => o == addr
        | none => false)

/-- `AccessControl::has_role_internal`. -/
def acHasRoleInternal (s : Store) (addr role : String) :
    Except ContractError Bool := do
  let r ← getBool s (roleKey role addr)
  pure (r.getD false)

/-- `AccessControl::has_role`: pure query, any storage error degraded to
`false`. -/
def acHasRole (s : Store) (addr role : String) : Bool :=
  match acHasRoleInternal s addr role with
  | .ok b => b
  | .error _ => false

/-- `AccessControl::is_owner_or_admin`. -/
def acIsOwnerOrAdmin (s : Store) (addr : String) :
    Except ContractError Bool := do
  let io ← acIsOwner s addr
  if io then pure true else acHasRoleInternal s addr "admin"

/-- `AccessControl::grant_role_internal`: write `true` at the role key. -/
def acGrantRoleInternal (s : Store) (addr role : String) : Store :=
  insertStore s (roleKey role addr) (.vBool true)

/-- `AccessControl::revoke_role_internal`: `Map::remove`, the empty-payload
tombstone, i.e. deletion. -/
def acRevokeRoleInternal (s : Store) (addr role : String) : Store :=
  removeStore s (roleKey role addr)

/-- `AccessControl::initialize`: set the owner pointer, then grant the
`admin` role to the owner.  No authorization and no already-initialized
check. -/
def acInitialize (s : Store) (owner : String) : Store :=
  acGrantRoleInternal (insertStore s OWNER_KEY (.vStr owner)) owner "admin"

/-- `AccessControl::grant_role`: owner-or-admin gate, then the raw grant. -/
def acGrantRole (s : Store) (granter addr role : String) :
    Except ContractError Store := do
  let allowed ← acIsOwnerOrAdmin s granter
  if !allowed then
    throw ContractError.Unauthorized
  else
    pure (acGrantRoleInternal s addr role)

/-- `AccessControl::revoke_role`: owner-or-admin gate, then the raw
removal. -/
def acRevokeRole (s : Store) (revoker addr role : String) :
    Except ContractError Store := do
  let allowed ← acIsOwnerOrAdmin s revoker
  if !allowed then
    throw ContractError.Unauthorized
  else
    pure (acRevokeRoleInternal s addr role)

/-- `AccessControl::transfer_ownership`: requires `current` to be the stored
owner, then, in order: set the owner pointer to `new`, grant `admin` to
`new`, revoke `admin` from `current`. -/
def acTransferOwnership (s : Store) (current nw : String) :
    Except ContractError Store := do
  let io ← acIsOwner s current
  if !io then
    throw ContractError.Unauthorized
  else
    pure (acRevokeRoleInternal
      (acGrantRoleInternal (insertStore s OWNER_KEY (.vStr nw)) nw "admin")
      current "admin")

/-- One `AccessControl` mutation, for quantifying over call sequences. -/
inductive Mutation where
  | init (owner : String)
  | grant (granter addr role : String)
  | revoke (revoker addr role : String)
  | transfer (current nw : String)
deriving DecidableEq, Repr

/-- Apply one mutation. -/
def acStep (s : Store) : Mutation → Except ContractError Store
  | .init o => .ok (acInitialize s o)
  | .grant g a r => acGrantRole s g a r
  | .revoke g a r => acRevokeRole s g a r
  | .transfer c n => acTransferOwnership s c n

/-- The owner-admin sync invariant: whenever an owner is stored, that
address holds the `admin` role. -/
def ownerAdminSynced (s : Store) : Bool :=
  match acOwner s with
  | some o => acHasRole s o "admin"
  | none => true

/-- Side conditions under which a mutation preserves the sync invariant:
a revocation must not remove the physical role entry of the current owner
(`revoke_role(_, owner, "admin")` does exactly that), and an ownership
transfer must not target the current owner itself. -/
def safeMutation (s : Store) : Mutation → Prop
  | .revoke _ addr role =>
      ∀ o, acOwner s = some o → roleKey role addr ≠ roleKey "admin" o
  | .transfer c n => c ≠ n
  | _ => True

/-- States reachable through successful mutations, every step observing the
`safeMutation` side conditions. -/
inductive AcReach : Store → Store → Prop where
  | refl (s : Store) : AcReach s s
  | step (s t u : Store) (m : Mutation) : AcReach s t → safeMutation t m →
      acStep t m = .ok u → AcReach s u

theorem acOwner_eq (s : Store) :
    acOwner s = (match lookupStore s OWNER_KEY with
                 | some (.vStr o) => some o
                 | some (.vBool _) => none
                 | some (.vNat _) => none
                 | none => none) := by
  unfold acOwner acReadOwner getStr storeGet
  cases lookupStore s OWNER_KEY with
  | none => rfl
  | some v => cases v <;> rfl

theorem acHasRole_eq (s : Store) (addr role : String) :
    acHasRole s addr role =
      (match lookupStore s (roleKey role addr) with
       | some (.vBool b) => b
       | some (.vStr _) => false
       | some (.vNat _) => false
       | none => false) := by
  unfold acHasRole acHasRoleInternal getBool storeGet
  cases lookupStore s (roleKey role addr) with
  | none => rfl
  | some v => cases v <;> rfl

theorem acIsOwner_spec (s : Store) (addr : String) (ow : Option String)
    (h : acReadOwner s = .ok ow) :
    acIsOwner s addr = .ok ((ow.map (fun o => o == addr)).getD false) := by
  unfold acIsOwner
  rw [h]
  cases ow <;> exact rfl

theorem acGrantRole_ok (s : Store) (g a r : String) (u : Store)
    (h : acGrantRole s g a r = .ok u) : u = acGrantRoleInternal s a r := by
  unfold acGrantRole at h
  cases hio : acIsOwnerOrAdmin s g with
  | error e => rw [hio] at h; exact absurd h (by simp [Bind.bind, Except.bind])
  | ok b =>
      rw [hio] at h
      cases b with
      | false => exact absurd h (by simp [Bind.bind, Except.bind, throw,
          throwThe, MonadExceptOf.throw])
      | true => simpa [Bind.bind, Except.bind, pure, Except.pure] using h.symm

theorem acRevokeRole_ok (s : Store) (g a r : String) (u : Store)
    (h : acRevokeRole s g a r = .ok u) : u = acRevokeRoleInternal s a r := by
  unfold acRevokeRole at h
  cases hio : acIsOwnerOrAdmin s g with
  | error e => rw [hio] at h; exact absurd h (by simp [Bind.bind, Except.bind])
  | ok b =>
      rw [hio] at h
      cases b with
      | false => exact absurd h (by simp [Bind.bind, Except.bind, throw,
          throwThe, MonadExceptOf.throw])
      | true => simpa [Bind.bind, Except.bind, pure, Except.pure] using h.symm

theorem acTransferOwnership_ok (s : Store) (c n : String) (u : Store)
    (h : acTransferOwnership s c n = .ok u) :
    acIsOwner s c = .ok true ∧
    u = acRevokeRoleInternal
          (acGrantRoleInternal (insertStore s OWNER_KEY (.vStr n)) n "admin")
          c "admin" := by
  unfold acTransferOwnership at h
  cases hio : acIsOwner s c with
  | error e => rw [hio] at h; exact absurd h (by simp [Bind.bind, Except.bind])
  | ok b =>
      rw [hio] at h
      cases b with
      | false => exact absurd h (by simp [Bind.bind, Except.bind, throw,
          throwThe, MonadExceptOf.throw])
      | true =>
          refine ⟨rfl, ?_⟩
          simpa [Bind.bind, Except.bind, pure, Except.pure] using h.symm

theorem acIsOwner_true_owner (s : Store) (c : String)
    (h : acIsOwner s c = .ok true) : acOwner s = some c := by
  unfold acIsOwner at h
  unfold acOwner
  cases hro : acReadOwner s with
  | error e => rw [hro] at h; exact absurd h (by simp [Bind.bind, Except.bind])
  | ok ow =>
      rw [hro] at h
      cases ow with
      | none => exact absurd h (by simp [Bind.bind, Except.bind, pure,
          Except.pure])
      | some o =>
          have hb : (o == c) = true := by
            by_contra hb
            rw [eq_comm] at h
            simp [Bind.bind, Except.bind, pure, Except.pure] at h
            exact hb (by simp [h])
          simp [eq_of_beq hb]

theorem acOwner_after_init (s : Store) (o : String) :
    acOwner (acInitialize s o) = some o := by
  rw [acOwner_eq]
  unfold acInitialize acGrantRoleInternal
  rw [lookup_insertStore_ne _ _ _ _ (Ne.symm (roleKey_ne_owner "admin" o)),
    lookup_insertStore_self]

theorem acHasRole_initialize_self (s : Store) (o : String) :
    acHasRole (acInitialize s o) o "admin" = true := by
  rw [acHasRole_eq]
  unfold acInitialize acGrantRoleInternal
  rw [lookup_insertStore_self]

/-- Claim C10: `initialize` performs no authorization and no
already-initialized check — from every prior state it succeeds, overwrites
the stored owner, grants the new owner the `admin` role, and leaves every
other storage entry, in particular all previously granted roles, intact. -/
theorem c10_initialize_unchecked (s : Store) (o : String) :
    acStep s (.init o) = .ok (acInitialize s o) ∧
    acOwner (acInitialize s o) = some o ∧
    acHasRole (acInitialize s o) o "admin" = true ∧
    (∀ k, k ≠ OWNER_KEY → k ≠ roleKey "admin" o →
      lookupStore (acInitialize s o) k = lookupStore s k) ∧
    (∀ a r, acHasRole s a r = true →
      acHasRole (acInitialize s o) a r = true) := by
  refine ⟨rfl, acOwner_after_init s o, acHasRole_initialize_self s o, ?_, ?_⟩
  · intro k hk1 hk2
    unfold acInitialize acGrantRoleInternal
    rw [lookup_insertStore_ne _ _ _ _ hk2, lookup_insertStore_ne _ _ _ _ hk1]
  · intro a r h
    rw [acHasRole_eq] at h ⊢
    unfold acInitialize acGrantRoleInternal
    by_cases hk : roleKey r a = roleKey "admin" o
    · rw [hk, lookup_insertStore_self]
    · rw [lookup_insertStore_ne _ _ _ _ hk,
        lookup_insertStore_ne _ _ _ _ (roleKey_ne_owner r a)]
      exact h

/-- Witness for C10: a pre-existing role grant survives a later
re-initialization with a different owner. -/
theorem c10_initialize_unchecked_witness :
    acHasRole (acGrantRoleInternal [] "user_address_one" "minter")
      "user_address_one" "minter" = true ∧
    acHasRole (acInitialize (acGrantRoleInternal [] "user_address_one"
      "minter") "owner_address_two") "user_address_one" "minter" = true :=
  ⟨by decide, (c10_initialize_unchecked _ _).2.2.2.2 "user_address_one"
    "minter" (by decide)⟩

/-- Counterexample to C3 as stated: transferring ownership to the current
owner itself performs the three mutations in order, but the final revoke
removes the `admin` role just granted, so afterwards `new` does not hold
`admin` (the claim asserts it does). -/
theorem c3_counterexample_self_transfer :
    (acTransferOwnership (acInitialize [] "owner_address_one")
        "owner_address_one" "owner_address_one").map
      (fun t => (acOwner t, acHasRole t "owner_address_one" "admin")) =
    .ok (some "owner_address_one", false) := by decide

/-- Claim C3, amended: `transfer_ownership(current, new)` fails
`Unauthorized` (mutating nothing) when `current` is not the stored owner;
when `current` is the stored owner it performs exactly three storage
mutations in order — set the owner pointer to `new`, grant `admin` to
`new`, revoke `admin` from `current` — so afterwards, provided
`new ≠ current`, the owner is `new`, `new` holds `admin`, and `current`
does not; when `new = current` the final revoke removes the `admin` grant
made one step earlier, leaving the owner without `admin`. -/
theorem c3_transfer_ownership (s : Store) (cur nw : String)
    (ow : Option String) (hwf : acReadOwner s = .ok ow) :
    (ow ≠ some cur → acTransferOwnership s cur nw = .error .Unauthorized) ∧
    (ow = some cur →
      acTransferOwnership s cur nw =
        .ok (acRevokeRoleInternal
          (acGrantRoleInternal (insertStore s OWNER_KEY (.vStr nw)) nw
            "admin") cur "admin") ∧
      (cur ≠ nw →
        acOwner (acRevokeRoleInternal
          (acGrantRoleInternal (insertStore s OWNER_KEY (.vStr nw)) nw
            "admin") cur "admin") = some nw ∧
        acHasRole (acRevokeRoleInternal
          (acGrantRoleInternal (insertStore s OWNER_KEY (.vStr nw)) nw
            "admin") cur "admin") nw "admin" = true ∧
        acHasRole (acRevokeRoleInternal
          (acGrantRoleInternal (insertStore s OWNER_KEY (.vStr nw)) nw
            "admin") cur "admin") cur "admin" = false)) := by
  constructor
  · intro hne
    have hval : (ow.map (fun o => o == cur)).getD false = false := by
      cases ow with
      | none => rfl
      | some o =>
          cases hoc : (o == cur) with
          | false => simp [hoc]
          | true => exact absurd (congrArg some (eq_of_beq hoc)) hne
    unfold acTransferOwnership
    rw [acIsOwner_spec s cur ow hwf, hval]
    exact rfl
  · intro heq
    have hval : (ow.map (fun o => o == cur)).getD false = true := by
      subst heq
      simp
    constructor
    · unfold acTransferOwnership
      rw [acIsOwner_spec s cur ow hwf, hval]
      exact rfl
    · intro hcn
      have hkey : roleKey "admin" nw ≠ roleKey "admin" cur := by
        intro hh
        exact hcn (roleKey_inj_addr "admin" nw cur hh).symm
      refine ⟨?_, ?_, ?_⟩
      · rw [acOwner_eq]
        unfold acRevokeRoleInternal acGrantRoleInternal
        rw [lookup_removeStore_ne _ _ _
            (Ne.symm (roleKey_ne_owner "admin" cur)),
          lookup_insertStore_ne _ _ _ _
            (Ne.symm (roleKey_ne_owner "admin" nw)),
          lookup_insertStore_self]
      · rw [acHasRole_eq]
        unfold acRevokeRoleInternal acGrantRoleInternal
        rw [lookup_removeStore_ne _ _ _ hkey, lookup_insertStore_self]
      · rw [acHasRole_eq]
        unfold acRevokeRoleInternal acGrantRoleInternal
        rw [lookup_removeStore_self]

/-- Witness for C3 (amended) at concrete inputs. -/
theorem c3_transfer_ownership_witness :
    acReadOwner (acInitialize [] "owner_address_one") =
      .ok (some "owner_address_one") ∧
    acOwner (acRevokeRoleInternal
      (acGrantRoleInternal (insertStore (acInitialize [] "owner_address_one")
        OWNER_KEY (.vStr "owner_address_two")) "owner_address_two" "admin")
      "owner_address_one" "admin") = some "owner_address_two" :=
  ⟨by decide, (((c3_transfer_ownership (acInitialize [] "owner_address_one")
    "owner_address_one" "owner_address_two" (some "owner_address_one")
    (by decide)).2 rfl).2 (by decide)).1⟩

/-- Counterexample to C2 as stated: starting from the initialized state,
the successful mutation `revoke_role(owner, owner, "admin")` leaves the
stored owner in place while removing its `admin` role, so the owner and the
`admin` role are no longer in sync. -/
theorem c2_counterexample_revoke_owner_admin :
    (acStep (acInitialize [] "owner_address_one")
        (.revoke "owner_address_one" "owner_address_one" "admin")).map
      (fun t => (acOwner t, acHasRole t "owner_address_one" "admin")) =
    .ok (some "owner_address_one", false) := by decide

theorem ownerAdminSynced_of (s : Store)
    (h : ∀ o, acOwner s = some o → acHasRole s o "admin" = true) :
    ownerAdminSynced s = true := by
  unfold ownerAdminSynced
  cases hoc : acOwner s with
  | none => rfl
  | some o => exact h o hoc

theorem ownerAdminSynced_some (s : Store) (o : String)
    (hs : ownerAdminSynced s = true) (h : acOwner s = some o) :
    acHasRole s o "admin" = true := by
  unfold ownerAdminSynced at hs
  rw [h] at hs
  exact hs

theorem c2_sync_base (s : Store) (o : String) :
    ownerAdminSynced (acInitialize s o) = true := by
  apply ownerAdminSynced_of
  intro o2 ho2
  rw [acOwner_after_init] at ho2
  have : o = o2 := Option.some.inj ho2
  subst this
  exact acHasRole_initialize_self s o

theorem c2_sync_preserved (t : Store) (m : Mutation) (u : Store)
    (hsync : ownerAdminSynced t = true) (hsafe : safeMutation t m)
    (hstep : acStep t m = .ok u) : ownerAdminSynced u = true := by
  cases m with
  | init o =>
      have hu : acInitialize t o = u := by
        simpa [acStep] using hstep
      rw [← hu]
      exact c2_sync_base t o
  | grant g a r =>
      have hu : u = acGrantRoleInternal t a r := acGrantRole_ok t g a r u hstep
      subst hu
      have hown : acOwner (acGrantRoleInternal t a r) = acOwner t := by
        rw [acOwner_eq, acOwner_eq]
        unfold acGrantRoleInternal
        rw [lookup_insertStore_ne _ _ _ _ (Ne.symm (roleKey_ne_owner r a))]
      apply ownerAdminSynced_of
      intro o hoc2
      rw [hown] at hoc2
      have hsync2 := ownerAdminSynced_some t o hsync hoc2
      rw [acHasRole_eq] at hsync2 ⊢
      unfold acGrantRoleInternal
      by_cases hk : roleKey "admin" o = roleKey r a
      · rw [hk, lookup_insertStore_self]
      · rw [lookup_insertStore_ne _ _ _ _ hk]
        exact hsync2
  | revoke g a r =>
      have hu : u = acRevokeRoleInternal t a r := acRevokeRole_ok t g a r u hstep
      subst hu
      have hown : acOwner (acRevokeRoleInternal t a r) = acOwner t := by
        rw [acOwner_eq, acOwner_eq]
        unfold acRevokeRoleInternal
        rw [lookup_removeStore_ne _ _ _ (Ne.symm (roleKey_ne_owner r a))]
      apply ownerAdminSynced_of
      intro o hoc2
      rw [hown] at hoc2
      have hsync2 := ownerAdminSynced_some t o hsync hoc2
      rw [acHasRole_eq] at hsync2 ⊢
      unfold acRevokeRoleInternal
      rw [lookup_removeStore_ne _ _ _ (Ne.symm (hsafe o hoc2))]
      exact hsync2
  | transfer c n =>
      obtain ⟨hio, hu⟩ := acTransferOwnership_ok t c n u hstep
      have hcn : c ≠ n := hsafe
      have hkey : roleKey "admin" n ≠ roleKey "admin" c := by
        intro hh
        exact hcn (roleKey_inj_addr "admin" n c hh).symm
      subst hu
      have hown : acOwner (acRevokeRoleInternal
          (acGrantRoleInternal (insertStore t OWNER_KEY (.vStr n)) n "admin")
          c "admin") = some n := by
        rw [acOwner_eq]
        unfold acRevokeRoleInternal acGrantRoleInternal
        rw [lookup_removeStore_ne _ _ _
            (Ne.symm (roleKey_ne_owner "admin" c)),
          lookup_insertStore_ne _ _ _ _
            (Ne.symm (roleKey_ne_owner "admin" n)),
          lookup_insertStore_self]
      apply ownerAdminSynced_of
      intro o hoc2
      rw [hown] at hoc2
      have : n = o := Option.some.inj hoc2
      subst this
      rw [acHasRole_eq]
      unfold acRevokeRoleInternal acGrantRoleInternal
      rw [lookup_removeStore_ne _ _ _ hkey, lookup_insertStore_self]

/-- Claim C2, amended: owner-admin sync is an invariant of every sequence of
successful mutations from an initialized state, provided no `revoke_role`
removes the physical role entry of the current owner (which
`revoke_role(owner, owner, "admin")` does while leaving the owner stored)
and no `transfer_ownership` targets the current owner itself.  Without
these two side conditions the stated invariant fails. -/
theorem c2_owner_admin_sync (s0 : Store) (o : String) (s : Store)
    (h : AcReach (acInitialize s0 o) s) : ownerAdminSynced s = true := by
  induction h with
  | refl => exact c2_sync_base s0 o
  | step t u m hreach hsafe hstep ih => exact c2_sync_preserved t m u ih hsafe hstep

/-- Witness for C2 (amended) at the initialized state. -/
theorem c2_owner_admin_sync_witness :
    ownerAdminSynced (acInitialize [] "owner_address_one") = true :=
  c2_owner_admin_sync [] "owner_address_one" _ (AcReach.refl _)

/-! ## Storage vector (`storage.rs`, `Vector<T>`)

The element type `T` is modelled by a predicate `elemOk : Val → Bool`
characterising the stored payloads that decode at `T` (postcard round-trip:
a value the vector itself wrote decodes back to itself).  The length field
is a `u64` at the `::len` key. -/

/-- `Vector::len_key`. -/
def lenKey (p : String) : String := p ++ "::len"

/-- `Vector::item_key`. -/
def itemKey (p : String) (index : Nat) : String :=
  p ++ "::item::" ++ toString index

theorem lenKey_ne_itemKey (p : String) (i : Nat) : lenKey p ≠ itemKey p i := by
  intro h
  have hlen := congrArg (fun s => s.data.length) h
  simp only [lenKey, itemKey, String.data_append, List.length_append] at hlen
  have e1 : ("::len".data).length = 5 := by decide
  have e2 : ("::item::".data).length = 8 := by decide
  rw [e1, e2] at hlen
  omega

/-- `Vector::len`: the `u64` stored at the length key, defaulting to 0 when
absent. -/
def vecLen (s : Store) (p : String) : Except ContractError Nat := do
  let l ← getNat s (lenKey p)
  pure (l.getD 0)

/-- `Storage::get` at the element type of the vector. -/
def getItemVal (elemOk : Val → Bool) (s : Store) (key : String) :
    Except ContractError (Option Val) :=
  storeGet (fun v => if elemOk v then some v else none) s key

/-- `Vector::get`: bounds check against the length, then read the item. -/
def vecGet (elemOk : Val → Bool) (s : Store) (p : String) (index : Nat) :
    Except ContractError (Option Val) := do
  let len ← vecLen s p
  if len ≤ index then
    pure none
  else
    getItemVal elemOk s (itemKey p index)

/-- `Vector::set`: bounds check against the length, then write the item. -/
def vecSet (s : Store) (p : String) (index : Nat) (value : Val) :
    Except ContractError Store := do
  let len ← vecLen s p
  if len ≤ index then
    throw (ContractError.InvalidArgument "Index out of bounds")
  else
    pure (insertStore s (itemKey p index) value)

/-- `Vector::push`: write the item at index `len`, then store `len + 1` at
the length key.  The increment is `u64` arithmetic, so it is taken modulo
2^64: at a stored length of `u64::MAX` the source wraps the length to 0 in
release builds (with overflow checks enabled it would abort instead — in
either build the non-wrapping reading is wrong at that state). -/
def vecPush (s : Store) (p : String) (value : Val) :
    Except ContractError Store := do
  let len ← vecLen s p
  pure (insertStore (insertStore s (itemKey p len) value) (lenKey p)
    (.vNat ((len + 1) % U64_MOD)))

/-- `Vector::pop`: length 0 returns `none` without mutating; otherwise read
the item at `len - 1`, remove it, then store `len - 1` at the length key. -/
def vecPop (elemOk : Val → Bool) (s : Store) (p : String) :
    Except ContractError (Store × Option Val) := do
  let len ← vecLen s p
  if len = 0 then
    pure (s, none)
  else do
    let v ← getItemVal elemOk s (itemKey p (len - 1))
    pure (insertStore (removeStore s (itemKey p (len - 1))) (lenKey p)
      (.vNat (len - 1)), v)

theorem except_bind_ok {α β : Type} (a : α)
    (f : α → Except ContractError β) : (Except.ok a >>= f) = f a := rfl

theorem vecLen_insert_item (s : Store) (p : String) (i : Nat) (x : Val) :
    vecLen (insertStore s (itemKey p i) x) p = vecLen s p := by
  unfold vecLen getNat storeGet
  rw [lookup_insertStore_ne _ _ _ _ (lenKey_ne_itemKey p i)]

theorem vecLen_set_len (s : Store) (p : String) (n : Nat) :
    vecLen (insertStore s (lenKey p) (.vNat n)) p = .ok n := by
  unfold vecLen getNat storeGet
  rw [lookup_insertStore_self]
  exact rfl

/-- Counterexample to C6 as stated: at a vector state whose stored length
is `u64::MAX`, the `u64` increment in `push` wraps the length to 0, so the
following `pop` takes the empty branch and returns `Ok(None)` — not
`Some x` — and the prior length is not restored (the stored length is 0). -/
theorem c6_counterexample_len_wrap :
    (vecPush [(lenKey "values", Val.vNat 18446744073709551615)] "values"
        (.vNat 7)).map
      (fun t => (vecLen t "values",
        (vecPop (fun _ => true) t "values").map (fun r => r.2))) =
    .ok (.ok 0, .ok none) := by decide

/-- Claim C6, amended: for every vector state (a state whose length field
is absent or holds a `u64`) with stored length below `u64::MAX`, and every
value `x` of the element type, `push x` then `pop` succeeds, returns
`Some x`, and restores the prior length; `push` writes the item entry
before incrementing the length field (at the intermediate state the item
is written but the length is unchanged), `pop` reads and removes the item
before storing the decremented length (visible in the shape of the
resulting store); `pop` on a vector of length 0 returns `Ok(None)` and
performs no storage mutation.  At stored length `u64::MAX` the `u64`
increment wraps, so push-then-pop returns `Ok(None)` and does not restore
the length. -/
theorem c6_push_pop (elemOk : Val → Bool) (s : Store) (p : String) (x : Val)
    (n : Nat) (hlen : vecLen s p = .ok n) (hband : n + 1 < U64_MOD)
    (hx : elemOk x = true) :
    vecPush s p x = .ok (insertStore (insertStore s (itemKey p n) x)
      (lenKey p) (.vNat (n + 1))) ∧
    vecLen (insertStore s (itemKey p n) x) p = .ok n ∧
    vecPop elemOk (insertStore (insertStore s (itemKey p n) x) (lenKey p)
        (.vNat (n + 1))) p =
      .ok (insertStore (removeStore (insertStore (insertStore s
          (itemKey p n) x) (lenKey p) (.vNat (n + 1))) (itemKey p n))
        (lenKey p) (.vNat n), some x) ∧
    vecLen (insertStore (removeStore (insertStore (insertStore s
        (itemKey p n) x) (lenKey p) (.vNat (n + 1))) (itemKey p n))
      (lenKey p) (.vNat n)) p = .ok n ∧
    (n = 0 → vecPop elemOk s p = .ok (s, none)) := by
  refine ⟨?_, ?_, ?_, ?_, ?_⟩
  · unfold vecPush
    rw [hlen]
    simp only [except_bind_ok]
    rw [Nat.mod_eq_of_lt hband]
    exact rfl
  · rw [vecLen_insert_item]
    exact hlen
  · have hitem : getItemVal elemOk (insertStore (insertStore s (itemKey p n)
        x) (lenKey p) (.vNat (n + 1))) (itemKey p n) = .ok (some x) := by
      unfold getItemVal storeGet
      rw [lookup_insertStore_ne _ _ _ _ (Ne.symm (lenKey_ne_itemKey p n)),
        lookup_insertStore_self]
      simp [hx]
    unfold vecPop
    rw [vecLen_set_len]
    simp only [except_bind_ok]
    rw [if_neg (by omega : ¬ (n + 1 = 0))]
    simp only [Nat.add_sub_cancel]
    rw [hitem]
    simp only [except_bind_ok]
    exact rfl
  · rw [vecLen_set_len]
  · intro hz
    subst hz
    unfold vecPop
    rw [hlen]
    exact rfl

/-- Witness for C6 (amended): push 7 onto an empty vector, then pop it
back. -/
theorem c6_push_pop_witness :
    vecLen [] "values" = .ok 0 ∧ 0 + 1 < U64_MOD ∧
    vecPop (fun _ => true) (insertStore (insertStore [] (itemKey "values" 0)
        (.vNat 7)) (lenKey "values") (.vNat 1)) "values" =
      .ok (insertStore (removeStore (insertStore (insertStore []
          (itemKey "values" 0) (.vNat 7)) (lenKey "values") (.vNat 1))
          (itemKey "values" 0)) (lenKey "values") (.vNat 0),
        some (.vNat 7)) :=
  ⟨by decide, by decide,
    (c6_push_pop (fun _ => true) [] "values" (.vNat 7) 0 (by decide)
      (by decide) rfl).2.2.1⟩

/-- Claim C7: for every vector of length `len` and every index at or beyond
`len`, `get` returns `Ok(None)` (no error) and `set` fails
`InvalidArgument` without writing anything — there is no implicit
growth. -/
theorem c7_bounds (elemOk : Val → Bool) (s : Store) (p : String) (i : Nat)
    (v : Val) (n : Nat) (hlen : vecLen s p = .ok n) (hi : n ≤ i) :
    vecGet elemOk s p i = .ok none ∧
    vecSet s p i v = .error (.InvalidArgument "Index out of bounds") := by
  constructor
  · unfold vecGet
    rw [hlen]
    simp only [except_bind_ok]
    rw [if_pos hi]
    exact rfl
  · unfold vecSet
    rw [hlen]
    simp only [except_bind_ok]
    rw [if_pos hi]
    exact rfl

/-- Witness for C7: out-of-range access on a vector of length 2. -/
theorem c7_bounds_witness :
    vecLen [(lenKey "values", Val.vNat 2)] "values" = .ok 2 ∧ 2 ≤ 5 ∧
    vecGet (fun _ => true) [(lenKey "values", Val.vNat 2)] "values" 5 =
      .ok none ∧
    vecSet [(lenKey "values", Val.vNat 2)] "values" 5 (.vNat 9) =
      .error (.InvalidArgument "Index out of bounds") :=
  ⟨by decide, by decide,
    (c7_bounds (fun _ => true) [(lenKey "values", Val.vNat 2)] "values" 5
      (.vNat 9) 2 (by decide) (by decide)).1,
    (c7_bounds (fun _ => true) [(lenKey "values", Val.vNat 2)] "values" 5
      (.vNat 9) 2 (by decide) (by decide)).2⟩

end SilicaSDK
